import Mathlib

/-!
Verification of the ingestion pipeline of `Auto-blog.py` (WordPress Auto Poster v2).

The Python source is shallowly embedded: each pure helper of the script becomes a
Lean function over explicit data, and the stateful publishing handler becomes a
function from an environment (describing the outcomes of the external world:
file reads, the YAML loader, the markdown renderer, HTTP responses, archive
moves) and a tracker state (the `processed_files` global set and the
`self.processing` member set) to a new tracker state and an outcome value.

Python strings are modelled as Lean `String` (both are sequences of code
points); Python `set` objects of path strings are modelled as `List String`
with membership, insertion at the head, and single removal (the paths involved
occur at most once, so this agrees with set semantics); Python exceptions are
modelled as `Except` values or explicit error constructors.
-/

set_option maxRecDepth 10000

namespace AutoBlog

/-- Whitespace characters recognised in the tests below. These are the ASCII
characters matched by the regular expression class used in
`parse_frontmatter` and by the default argument of Python `str.strip`;
non-ASCII Unicode whitespace is outside the scope of the claims. -/
def isPyWs (c : Char) : Bool :=
  c == ' ' || c == '\t' || c == '\n' || c == '\r' || c == '\x0b' || c == '\x0c'

/-- Model of `datetime.datetime` restricted to the fields the script touches. -/
structure PyDateTime where
  year : Nat
  month : Nat
  day : Nat
  hour : Nat
  minute : Nat
  second : Nat
deriving DecidableEq

/-- Scalar values that can appear in the parsed frontmatter mapping:
strings, integers, datetimes, and the Python `None` value. -/
inductive PyVal where
  | pynone
  | str (s : String)
  | int (n : Int)
  | datetime (d : PyDateTime)
deriving DecidableEq

/-- Python truthiness for the modelled values, as used by `if not title:`,
`if not category_name:`, `if post_date:` in the script. -/
def pyTruthy : PyVal → Bool
  | .pynone => false
  | .str s => s ≠ ""
  | .int n => n ≠ 0
  | .datetime _ => true

/-- Truthiness of a `metadata.get(...)` result (`None` when the key is absent). -/
def pyTruthyOpt : Option PyVal → Bool
  | none => false
  | some v => pyTruthy v

/-- The frontmatter mapping produced by `yaml.safe_load`, modelled as an
association list from keys to values (the scripts of interest never rely on
duplicate keys). -/
def Metadata : Type := List (String × PyVal)

instance : DecidableEq Metadata := by
  unfold Metadata
  infer_instance

/-- Model of `dict.get(key)`:the value of the first entry with the given key. -/
def metaGet (m : Metadata) (k : String) : Option PyVal :=
  (List.find? (fun e => e.1 == k) m).map (fun e => e.2)

/-- Model of Python `str.lower` on the ASCII range (`Char.toLower` lowers
exactly the ASCII uppercase letters, which covers the claims). -/
def pyLower (s : String) : String :=
  ⟨s.data.map Char.toLower⟩

/-- Model of Python `str.strip()` with no argument: remove leading and trailing
whitespace. -/
def pyStrip (s : String) : String :=
  ⟨((s.data.dropWhile isPyWs).reverse.dropWhile isPyWs).reverse⟩

/-!
The frontmatter matcher. `parse_frontmatter` applies
`re.match(r"^---\s*\n(.*?)\n---\s*\n(.*)$", content, re.DOTALL)`.
The functions below implement this specific pattern with the backtracking
semantics of the `re` module: `re.match` anchors at the start of the string,
a greedy `\s*` tries the longest whitespace run first and backtracks, the lazy
`(.*?)` tries the shortest amount first and extends on failure of the rest of
the pattern, and the final `(.*)$` with `DOTALL` takes the whole remainder.
-/

/-- Backtracking candidates of the sub-pattern consisting of a greedy
whitespace run followed by a newline: for each admissible split the remainder
of the input after the consumed part, longest consumed part first. An index
`i` is admissible when the first `i` characters are all whitespace and the
character at `i` is the newline consumed by the pattern. -/
def wsNlSplits (r : List Char) : List (List Char) :=
  (((List.range r.length).filter
      (fun i => (r.take i).all isPyWs && r.get? i == some '\n')).reverse).map
    (fun i => r.drop (i + 1))

/-- Match of the pattern remainder after the opening delimiter and its
newline: a lazy group, then a newline and three dashes, then a greedy
whitespace run and a newline, then the final group taking everything left.
Returns the two captured groups. -/
def innerMatch (t : List Char) : Option (List Char × List Char) :=
  ((List.range (t.length + 1)).filterMap
    (fun j =>
      if (t.drop j).take 4 = ['\n', '-', '-', '-'] then
        match (wsNlSplits (t.drop (j + 4))).head? with
        | some g2 => some (t.take j, g2)
        | none => none
      else none)).head?

/-- Full match of the frontmatter pattern against the whole document,
anchored at the start as `re.match` is. Returns the delimited metadata block
and the body when the pattern matches. -/
def fmMatch (content : String) : Option (String × String) :=
  if ['-', '-', '-'].isPrefixOf content.data then
    (((wsNlSplits (content.data.drop 3)).filterMap innerMatch).head?).map
      (fun g => (⟨g.1⟩, ⟨g.2⟩))
  else none

/-- Possible results of `yaml.safe_load` on the delimited block: a raised
`yaml.YAMLError`, a parsed mapping, or a non-mapping document (a scalar; the
script does not special-case these). -/
inductive YamlRes where
  | raised
  | mapping (m : Metadata)
  | scalar (v : PyVal)

/-- The metadata object `parse_frontmatter` hands to its caller: a mapping,
or a truthy non-mapping value passed through unchanged by `metadata or {}`,
on which the caller later raises `AttributeError` at `metadata.get`. -/
inductive MetaResult where
  | dict (m : Metadata)
  | nonDict (v : PyVal)
deriving DecidableEq

/-- Model of `parse_frontmatter` (lines 93 to 105 of the script). Only a
raised `yaml.YAMLError`, or no match of the pattern, degrades to the empty
mapping with the whole original text. A successful parse keeps the remainder
as body: `metadata or {}` turns every falsy result (`None`, empty mapping,
empty scalar) into the empty mapping and passes any truthy non-mapping
result through as the metadata object. -/
def parse_frontmatter (yload : String → YamlRes) (content : String) :
    MetaResult × String :=
  match fmMatch content with
  | some g =>
    match yload g.1 with
    | .raised => (.dict [], content)
    | .mapping m => (.dict m, g.2)
    | .scalar v => if pyTruthy v then (.nonDict v, g.2) else (.dict [], g.2)
  | none => (.dict [], content)

/-- Counterexample for C4: a delimited block that parses to the scalar string
hello is not key-value data, yet the script keeps it as the metadata object
with the remainder as body, instead of returning the empty mapping and the
original full text as the claim states for every block that fails to parse
as key-value data. -/
theorem c4_counterexample :
    parse_frontmatter (fun _ => YamlRes.scalar (PyVal.str "hello"))
        "---\nhello\n---\nrest"
      = (MetaResult.nonDict (PyVal.str "hello"), "rest")
    ∧ (MetaResult.nonDict (PyVal.str "hello"), ("rest" : String))
        ≠ (MetaResult.dict [], "---\nhello\n---\nrest") := by
  exact ⟨by decide, by decide⟩

/-- C4 as amended: the degradation to the empty mapping with the entire
original input happens exactly when the pattern does not match at the very
start (recognition is anchored there: a document not beginning with three
dashes never matches) or the delimited block raises a YAML parse error; a
block parsing to a falsy value gives the empty mapping with the remainder as
body; a block parsing to a truthy non-mapping value is passed through as the
metadata object, on which the publishing attempt later crashes. The function
itself is total and never raises. -/
theorem c4_parse_frontmatter_degrades (yload : String → YamlRes) (content : String) :
    (fmMatch content = none → parse_frontmatter yload content = (.dict [], content))
    ∧ (∀ g1 g2, fmMatch content = some (g1, g2) → yload g1 = YamlRes.raised →
        parse_frontmatter yload content = (.dict [], content))
    ∧ (['-', '-', '-'].isPrefixOf content.data = false → fmMatch content = none)
    ∧ (∀ g1 g2 v, fmMatch content = some (g1, g2) → yload g1 = YamlRes.scalar v →
        pyTruthy v = true → parse_frontmatter yload content = (.nonDict v, g2))
    ∧ (∀ g1 g2 v, fmMatch content = some (g1, g2) → yload g1 = YamlRes.scalar v →
        pyTruthy v = false → parse_frontmatter yload content = (.dict [], g2)) := by
  refine ⟨?_, ?_, ?_, ?_, ?_⟩
  · intro h
    simp [parse_frontmatter, h]
  · intro g1 g2 h hy
    simp [parse_frontmatter, h, hy]
  · intro h
    simp [fmMatch, h]
  · intro g1 g2 v h hy htr
    simp [parse_frontmatter, h, hy, htr]
  · intro g1 g2 v h hy htr
    simp [parse_frontmatter, h, hy, htr]

/-- Witness for C4 (amended): a raised YAML error returns the whole document
with empty metadata, an unanchored delimiter pair returns the whole document
with empty metadata, and a block parsing to `None` (a falsy scalar) gives the
empty mapping with the remainder as body. -/
theorem c4_witness :
    parse_frontmatter (fun _ => YamlRes.raised) "---\ntitle: 1\n---\nbody"
      = (MetaResult.dict [], "---\ntitle: 1\n---\nbody")
    ∧ parse_frontmatter (fun _ => YamlRes.mapping [("a", PyVal.int 1)])
        "text\n---\nx\n---\ny"
      = (MetaResult.dict [], "text\n---\nx\n---\ny")
    ∧ parse_frontmatter (fun _ => YamlRes.scalar PyVal.pynone) "---\n\n---\nbody"
      = (MetaResult.dict [], "body") := by
  refine ⟨?_, ?_, ?_⟩
  · exact (c4_parse_frontmatter_degrades _ _).2.1 "title: 1" "body" (by decide) rfl
  · exact (c4_parse_frontmatter_degrades _ _).1
      ((c4_parse_frontmatter_degrades (fun _ => YamlRes.mapping [("a", PyVal.int 1)])
        "text\n---\nx\n---\ny").2.2.1 (by decide))
  · exact (c4_parse_frontmatter_degrades _ _).2.2.2.2 "" "body" PyVal.pynone
      (by decide) rfl (by decide)

/-- Model of Python string slicing `s[n:]` (both sides index code points). -/
def pyDrop (s : String) (n : Nat) : String :=
  ⟨s.data.drop n⟩

/-- Model of Python `s.startswith(pre)`. -/
def pyStartsWith (s pre : String) : Bool :=
  pre.data.isPrefixOf s.data

/-- Model of Python `s.split(sep)` for the single-character separator used by
the script, written with structural recursion: the accumulator collects the
current chunk in reverse. Like the Python method, it keeps empty chunks and
returns one empty chunk for the empty input. -/
def splitNlAux : List Char → List Char → List String
  | [], acc => [⟨acc.reverse⟩]
  | c :: t, acc =>
    if c = '\n' then ⟨acc.reverse⟩ :: splitNlAux t [] else splitNlAux t (c :: acc)

/-- Model of `body.split("\n")`. -/
def pySplitNl (s : String) : List String :=
  splitNlAux s.data []

/-- Smallest index at which `pat` occurs as a contiguous sub-list, if any. -/
def firstOccIdx (pat : List Char) : List Char → Option Nat
  | [] => if pat.isPrefixOf ([] : List Char) then some 0 else none
  | c :: t => if pat.isPrefixOf (c :: t) then some 0 else (firstOccIdx pat t).map (· + 1)

/-- Model of Python `s.replace(pat, "", 1)`: remove the first (leftmost)
occurrence of `pat` as a substring, or return the input unchanged when `pat`
does not occur. -/
def removeFirstSubAux (pat : List Char) : List Char → List Char
  | [] => []
  | c :: t =>
    if pat.isPrefixOf (c :: t) then (c :: t).drop pat.length
    else c :: removeFirstSubAux pat t

/-- String wrapper for `removeFirstSubAux`. -/
def removeFirstSub (pat s : String) : String :=
  ⟨removeFirstSubAux pat.data s.data⟩

/-- The recursive first-occurrence removal agrees with the declarative
description: cut `pat.length` characters starting at the first occurrence
index, and change nothing when there is no occurrence. -/
theorem removeFirstSubAux_eq (pat : List Char) : ∀ l : List Char,
    removeFirstSubAux pat l =
      match firstOccIdx pat l with
      | some i => l.take i ++ l.drop (i + pat.length)
      | none => l := by
  intro l
  induction l with
  | nil =>
    cases pat with
    | nil => simp [removeFirstSubAux, firstOccIdx, List.isPrefixOf]
    | cons a t => simp [removeFirstSubAux, firstOccIdx, List.isPrefixOf]
  | cons c t ih =>
    by_cases h : pat.isPrefixOf (c :: t) = true
    · simp [removeFirstSubAux, firstOccIdx, h]
    · simp only [removeFirstSubAux, firstOccIdx, h, if_false, Bool.false_eq_true, ih]
      cases hf : firstOccIdx pat t with
      | none => simp
      | some i => simp [List.take_succ_cons, List.drop_succ_cons, Nat.add_right_comm]

/-- Model of the title resolution block (lines 210 to 220 of the script):
prefer a truthy `metadata.get("title")`; otherwise scan the lines of the body
for the first one starting with a level-1 heading marker, take its remainder
stripped as the title and delete the first substring occurrence of that line
followed by a newline from the body; if the title is still falsy, use the stem
of the file name. -/
def resolveTitle (mtitle : Option PyVal) (body : String) (stem : String) :
    PyVal × String :=
  let r :=
    if pyTruthyOpt mtitle then (mtitle, body)
    else
      match (pySplitNl body).find? (fun l => pyStartsWith l "# ") with
      | some line =>
        (some (PyVal.str (pyStrip (pyDrop line 2))), removeFirstSub (line ++ "\n") body)
      | none => (mtitle, body)
  if pyTruthyOpt r.1 then (r.1.getD (PyVal.str stem), r.2) else (PyVal.str stem, r.2)

/-- Counterexample for C6: when the heading is the last line of the body and
is not followed by a newline, the searched substring (the heading line plus a
newline) does not occur, so nothing is removed: the resolved title is taken
from the heading but the resulting body still contains the heading line,
contradicting the claim that exactly that one line is removed. -/
theorem c6_counterexample :
    resolveTitle none "# Hello World" "post"
      = (PyVal.str "Hello World", "# Hello World") := by
  decide

/-- C6 as amended: metadata title is preferred when truthy; otherwise the
first line beginning with a level-1 heading marker provides the title (its
remainder trimmed), and the body loses the first substring occurrence of that
line followed by a newline, which may be no occurrence at all when the heading
line ends the body without a trailing newline; when the trimmed remainder is
empty the title also falls back to the file stem; with no heading line the
title is the stem and the body is unchanged. For the spec example, a body
starting with the heading followed by a newline loses exactly that line. -/
theorem c6_title_resolution (mt : Option PyVal) (body stem : String) :
    (∀ v, mt = some v → pyTruthy v = true → resolveTitle mt body stem = (v, body))
    ∧ (pyTruthyOpt mt = false →
        ∀ line, (pySplitNl body).find? (fun l => pyStartsWith l "# ") = some line →
          (pyStrip (pyDrop line 2) ≠ "" →
            resolveTitle mt body stem
              = (PyVal.str (pyStrip (pyDrop line 2)), removeFirstSub (line ++ "\n") body))
          ∧ (pyStrip (pyDrop line 2) = "" →
              (resolveTitle mt body stem).1 = PyVal.str stem))
    ∧ (pyTruthyOpt mt = false →
        (pySplitNl body).find? (fun l => pyStartsWith l "# ") = none →
        resolveTitle mt body stem = (PyVal.str stem, body))
    ∧ (∀ pat s : String, removeFirstSub pat s =
        match firstOccIdx pat.data s.data with
        | some i => ⟨s.data.take i ++ s.data.drop (i + pat.data.length)⟩
        | none => s)
    ∧ resolveTitle none "# Hello World\nrest..." "post"
        = (PyVal.str "Hello World", "rest...") := by
  refine ⟨?_, ?_, ?_, ?_, by decide⟩
  · intro v hv htr
    subst hv
    simp [resolveTitle, pyTruthyOpt, htr]
  · intro hmt line hline
    constructor
    · intro hne
      have hcond : pyTruthyOpt (some (PyVal.str (pyStrip (pyDrop line 2)))) = true := by
        simp [pyTruthyOpt, pyTruthy, hne]
      simp [resolveTitle, hmt, hline, hcond]
    · intro he
      have hfalse : pyTruthyOpt (some (PyVal.str "")) = false := by decide
      simp [resolveTitle, hmt, hline, he, hfalse]
  · intro hmt hnone
    simp [resolveTitle, hmt, hnone]
  · intro pat s
    unfold removeFirstSub
    rw [removeFirstSubAux_eq]
    cases firstOccIdx pat.data s.data <;> rfl

/-- Witness for C6 (amended): a heading line inside a longer body is removed
at its first substring occurrence. -/
theorem c6_witness :
    resolveTitle none "intro\n# Title\nrest" "post" = (PyVal.str "Title", "intro\nrest") := by
  have h := (c6_title_resolution none "intro\n# Title\nrest" "post").2.1 (by decide)
    "# Title" (by decide)
  have h2 := h.1 (by decide)
  rw [h2]
  decide

/-- Model of the status resolution (lines 223 to 225): take
`metadata.get("status", "draft")`, lower-case it, and coerce anything outside
the three publish states to draft. Calling `.lower()` on a non-string value
raises an `AttributeError`, modelled as the error case, which the script only
handles in its catch-all handler. -/
def statusOf (v : Option PyVal) : Except Unit String :=
  match v.getD (PyVal.str "draft") with
  | .str s =>
    .ok (if pyLower s = "publish" ∨ pyLower s = "draft" ∨ pyLower s = "future"
         then pyLower s else "draft")
  | _ => .error ()

/-!
Model of `datetime.strptime` for the two fixed patterns the script tries, and
of `datetime.strftime` for the fixed output pattern. The token regular
expressions of the CPython `_strptime` module are implemented with their
alternation priority: the year is exactly four digits, month, day, hour and
minute accept one or two digits within their ranges, a space in the pattern
matches a run of whitespace, the whole input must be consumed, and the parsed
numbers must form a valid calendar date.
-/

/-- Parse exactly four digits (the year token). -/
def pYear : List Char → Option (Nat × List Char)
  | a :: b :: c :: d :: rest =>
    if a.isDigit ∧ b.isDigit ∧ c.isDigit ∧ d.isDigit then
      some ((a.toNat - 48) * 1000 + (b.toNat - 48) * 100 + (c.toNat - 48) * 10
        + (d.toNat - 48), rest)
    else none
  | _ => none

/-- Consume one expected literal character. -/
def expectChar (c : Char) : List Char → Option (List Char)
  | x :: rest => if x = c then some rest else none
  | [] => none

/-- Month token alternatives in priority order: 10 to 12, then 01 to 09, then
a single digit 1 to 9. -/
def monthAlts (l : List Char) : List (Nat × List Char) :=
  (match l with
   | '1' :: c :: rest => if '0' ≤ c ∧ c ≤ '2' then [(10 + (c.toNat - 48), rest)] else []
   | _ => []) ++
  (match l with
   | '0' :: c :: rest => if '1' ≤ c ∧ c ≤ '9' then [(c.toNat - 48, rest)] else []
   | _ => []) ++
  (match l with
   | c :: rest => if '1' ≤ c ∧ c ≤ '9' then [(c.toNat - 48, rest)] else []
   | _ => [])

/-- Day token alternatives in priority order: 30 or 31, then 10 to 29, then
01 to 09, then a single digit 1 to 9. -/
def dayAlts (l : List Char) : List (Nat × List Char) :=
  (match l with
   | '3' :: c :: rest => if c = '0' ∨ c = '1' then [(30 + (c.toNat - 48), rest)] else []
   | _ => []) ++
  (match l with
   | a :: c :: rest =>
     if (a = '1' ∨ a = '2') ∧ c.isDigit then
       [((a.toNat - 48) * 10 + (c.toNat - 48), rest)]
     else []
   | _ => []) ++
  (match l with
   | '0' :: c :: rest => if '1' ≤ c ∧ c ≤ '9' then [(c.toNat - 48, rest)] else []
   | _ => []) ++
  (match l with
   | c :: rest => if '1' ≤ c ∧ c ≤ '9' then [(c.toNat - 48, rest)] else []
   | _ => [])

/-- Hour token alternatives in priority order: 20 to 23, then a two-digit
value 00 to 19, then a single digit. -/
def hourAlts (l : List Char) : List (Nat × List Char) :=
  (match l with
   | '2' :: c :: rest => if '0' ≤ c ∧ c ≤ '3' then [(20 + (c.toNat - 48), rest)] else []
   | _ => []) ++
  (match l with
   | a :: c :: rest =>
     if (a = '0' ∨ a = '1') ∧ c.isDigit then
       [((a.toNat - 48) * 10 + (c.toNat - 48), rest)]
     else []
   | _ => []) ++
  (match l with
   | c :: rest => if c.isDigit then [(c.toNat - 48, rest)] else []
   | _ => [])

/-- Minute token alternatives in priority order: a two-digit value 00 to 59,
then a single digit. -/
def minuteAlts (l : List Char) : List (Nat × List Char) :=
  (match l with
   | a :: c :: rest =>
     if ('0' ≤ a ∧ a ≤ '5') ∧ c.isDigit then
       [((a.toNat - 48) * 10 + (c.toNat - 48), rest)]
     else []
   | _ => []) ++
  (match l with
   | c :: rest => if c.isDigit then [(c.toNat - 48, rest)] else []
   | _ => [])

/-- A space in the pattern matches one or more whitespace characters. -/
def pWs1 : List Char → Option (List Char)
  | c :: rest => if isPyWs c then some (rest.dropWhile isPyWs) else none
  | [] => none

/-- Gregorian leap year test, as in the datetime module. -/
def isLeap (y : Nat) : Bool :=
  (y % 4 == 0 && y % 100 != 0) || y % 400 == 0

/-- Number of days of a month. -/
def daysInMonth (y m : Nat) : Nat :=
  if m = 2 then (if isLeap y then 29 else 28)
  else if m = 4 ∨ m = 6 ∨ m = 9 ∨ m = 11 then 30
  else 31

/-- Validity check performed by the datetime constructor after token parsing
(the token grammar already bounds the month, hour and minute ranges). -/
def dateValid (y m d : Nat) : Bool :=
  1 ≤ y && 1 ≤ d && d ≤ daysInMonth y m

/-- Model of `datetime.strptime(s, "%Y-%m-%d %H:%M")`: token backtracking is
realised by trying the alternatives of each token in priority order against
the continuation of the pattern; the whole input must be consumed and the
date must be valid. -/
def strptimeYmdHM (s : String) : Option PyDateTime :=
  (pYear s.data).bind (fun yr =>
    (expectChar '-' yr.2).bind (fun l2 =>
      (monthAlts l2).findSome? (fun mo =>
        (expectChar '-' mo.2).bind (fun l4 =>
          (dayAlts l4).findSome? (fun dy =>
            (pWs1 dy.2).bind (fun l6 =>
              (hourAlts l6).findSome? (fun hr =>
                (expectChar ':' hr.2).bind (fun l8 =>
                  (minuteAlts l8).findSome? (fun mi =>
                    if mi.2 = [] ∧ dateValid yr.1 mo.1 dy.1 = true then
                      some ⟨yr.1, mo.1, dy.1, hr.1, mi.1, 0⟩
                    else none)))))))))

/-- Model of `datetime.strptime(s, "%Y-%m-%d")`. -/
def strptimeYmd (s : String) : Option PyDateTime :=
  (pYear s.data).bind (fun yr =>
    (expectChar '-' yr.2).bind (fun l2 =>
      (monthAlts l2).findSome? (fun mo =>
        (expectChar '-' mo.2).bind (fun l4 =>
          (dayAlts l4).findSome? (fun dy =>
            if dy.2 = [] ∧ dateValid yr.1 mo.1 dy.1 = true then
              some ⟨yr.1, mo.1, dy.1, 0, 0, 0⟩
            else none)))))

/-- Two-digit zero padding. -/
def pad2 (n : Nat) : String :=
  if n < 10 then "0" ++ toString n else toString n

/-- Four-digit zero padding for the year. -/
def pad4 (n : Nat) : String :=
  if n < 10 then "000" ++ toString n
  else if n < 100 then "00" ++ toString n
  else if n < 1000 then "0" ++ toString n
  else toString n

/-- Model of `strftime("%Y-%m-%dT%H:%M:%S")`, the single fixed output format
of the script. -/
def strftimeIso (d : PyDateTime) : String :=
  pad4 d.year ++ "-" ++ pad2 d.month ++ "-" ++ pad2 d.day ++ "T" ++
    pad2 d.hour ++ ":" ++ pad2 d.minute ++ ":" ++ pad2 d.second

/-- Model of the date resolution block (lines 227 to 242): the first
component is the resolved date string, the second records whether the warning
about an unparseable date was logged. A falsy value (absent key, `None`,
empty string, zero) skips the whole block; a datetime value is formatted
directly; a non-empty string is tried against the two patterns in order; a
truthy value of any other type is silently ignored. -/
def resolveDate (post_date : Option PyVal) : Option String × Bool :=
  match post_date with
  | none => (none, false)
  | some v =>
    if pyTruthy v then
      match v with
      | .datetime d => (some (strftimeIso d), false)
      | .str s =>
        match strptimeYmdHM s with
        | some d => (some (strftimeIso d), false)
        | none =>
          match strptimeYmd s with
          | some d => (some (strftimeIso d), false)
          | none => (none, true)
      | _ => (none, false)
    else (none, false)

/-- Counterexample for C5: the empty string is a string on which both
patterns fail, yet no warning is logged, because the truthiness guard skips
the whole block before any pattern is tried. The claim asserts that every
string failing both patterns logs a warning. -/
theorem c5_counterexample :
    strptimeYmdHM "" = none ∧ strptimeYmd "" = none
      ∧ resolveDate (some (PyVal.str "")) = (none, false) := by
  decide

/-- C5 as amended: a datetime value is formatted in the fixed ISO form; for a
string the first pattern (date with minutes) is tried first, then the plain
date pattern, and every successfully parsed date is emitted through the same
fixed ISO formatter; when both patterns fail on a non-empty string, the date
field is omitted and the warning is logged; an empty (falsy) date string is
skipped without a warning. The two concrete spec examples evaluate as
claimed. -/
theorem c5_date_resolution :
    (∀ d, resolveDate (some (PyVal.datetime d)) = (some (strftimeIso d), false))
    ∧ (∀ s d, strptimeYmdHM s = some d →
        resolveDate (some (PyVal.str s)) = (some (strftimeIso d), false))
    ∧ (∀ s d, strptimeYmdHM s = none → strptimeYmd s = some d →
        resolveDate (some (PyVal.str s)) = (some (strftimeIso d), false))
    ∧ (∀ s, s ≠ "" → strptimeYmdHM s = none → strptimeYmd s = none →
        resolveDate (some (PyVal.str s)) = (none, true))
    ∧ resolveDate (some (PyVal.str "2026-01-15 18:00"))
        = (some "2026-01-15T18:00:00", false)
    ∧ resolveDate (some (PyVal.str "2026-01-15")) = (some "2026-01-15T00:00:00", false)
    ∧ resolveDate (some (PyVal.str "not-a-date")) = (none, true) := by
  refine ⟨?_, ?_, ?_, ?_, by decide, by decide, by decide⟩
  · intro d
    simp [resolveDate, pyTruthy]
  · intro s d h
    have hs : s ≠ "" := by
      rintro rfl
      rw [show strptimeYmdHM "" = none from by decide] at h
      exact Option.noConfusion h
    simp [resolveDate, pyTruthy, hs, h]
  · intro s d h1 h2
    have hs : s ≠ "" := by
      rintro rfl
      rw [show strptimeYmd "" = none from by decide] at h2
      exact Option.noConfusion h2
    simp [resolveDate, pyTruthy, hs, h1, h2]
  · intro s hs h1 h2
    simp [resolveDate, pyTruthy, hs, h1, h2]

/-- Witness for C5 (amended): a datetime value and an unparseable non-empty
string, with the hypotheses discharged at those concrete inputs. -/
theorem c5_witness :
    resolveDate (some (PyVal.datetime ⟨2026, 1, 15, 18, 0, 0⟩))
      = (some "2026-01-15T18:00:00", false)
    ∧ resolveDate (some (PyVal.str "bad")) = (none, true) := by
  constructor
  · rw [c5_date_resolution.1 ⟨2026, 1, 15, 18, 0, 0⟩]
    decide
  · exact c5_date_resolution.2.2.2.1 "bad" (by decide) (by decide) (by decide)

/-!
Model of `wait_for_file_ready` (lines 108 to 130). The outside world is an
observation function giving, for each polling attempt, what `Path.exists` and
`Path.stat` report: the file is absent, the stat call raises, or a size is
read. Every iteration of the loop sleeps once for the retry delay, including
the final settle sleep before returning ready; the second component of the
result counts these sleeps.
-/

/-- One observation of the watched file. -/
inductive FileObs where
  | absent
  | statErr
  | size (n : Nat)
deriving DecidableEq

/-- The polling loop of `wait_for_file_ready`: remaining attempts in the last
argument, the `last_size` accumulator, and a sleep counter. -/
def waitLoop (obs : Nat → FileObs) (lastSize sleeps attempt : Nat) : Nat → Bool × Nat
  | 0 => (false, sleeps)
  | r + 1 =>
    match obs attempt with
    | .absent => waitLoop obs lastSize (sleeps + 1) (attempt + 1) r
    | .statErr => waitLoop obs lastSize (sleeps + 1) (attempt + 1) r
    | .size n =>
      if n = lastSize ∧ 0 < n then (true, sleeps + 1)
      else waitLoop obs n (sleeps + 1) (attempt + 1) r

/-- Model of `wait_for_file_ready` with its default arguments: ten attempts,
`last_size` starting at zero. -/
def wait_for_file_ready (obs : Nat → FileObs) : Bool × Nat :=
  waitLoop obs 0 0 0 10

/-- The value of the `last_size` accumulator before attempt `k`: the size of
the most recent successful observation, and zero before the first one. -/
def lastSizeAt (obs : Nat → FileObs) : Nat → Nat
  | 0 => 0
  | k + 1 =>
    match obs k with
    | .size n => n
    | _ => lastSizeAt obs k

/-- Readiness condition at attempt `k`: a size is observed, it is non-zero,
and it equals the immediately preceding size observation. -/
def readyAt (obs : Nat → FileObs) (k : Nat) : Bool :=
  match obs k with
  | .size n => decide (n = lastSizeAt obs k ∧ 0 < n)
  | _ => false

/-- The polling loop, started at attempt `a` with the accumulator it would
hold there, returns ready at the first attempt satisfying the readiness
condition, having slept once per completed attempt plus the final settle
sleep; with no ready attempt in the budget it returns not ready after one
sleep per attempt. -/
theorem waitLoop_eq (obs : Nat → FileObs) :
    ∀ (r a sl : Nat), waitLoop obs (lastSizeAt obs a) sl a r =
      match (List.range r).find? (fun i => readyAt obs (a + i)) with
      | some i => (true, sl + i + 1)
      | none => (false, sl + r) := by
  intro r
  induction r with
  | zero =>
    intro a sl
    simp [waitLoop]
  | succ r ih =>
    intro a sl
    rw [List.range_succ_eq_map]
    cases ho : obs a with
    | absent =>
      have hready : readyAt obs a = false := by simp [readyAt, ho]
      have hlast : lastSizeAt obs (a + 1) = lastSizeAt obs a := by simp [lastSizeAt, ho]
      have hstep : waitLoop obs (lastSizeAt obs a) sl a (r + 1)
          = waitLoop obs (lastSizeAt obs (a + 1)) (sl + 1) (a + 1) r := by
        simp only [waitLoop, ho, hlast]
      rw [hstep, ih (a + 1) (sl + 1)]
      rw [List.find?_cons_of_neg _ (by simpa using hready), List.find?_map]
      simp only [Function.comp_def, Nat.succ_eq_add_one]
      have harg : (fun i => readyAt obs (a + 1 + i)) = fun i => readyAt obs (a + (i + 1)) := by
        funext i
        congr 1
        omega
      rw [harg]
      cases hf : (List.range r).find? (fun i => readyAt obs (a + (i + 1))) with
      | none => exact congrArg (Prod.mk false) (by omega)
      | some i => exact congrArg (Prod.mk true) (by omega)
    | statErr =>
      have hready : readyAt obs a = false := by simp [readyAt, ho]
      have hlast : lastSizeAt obs (a + 1) = lastSizeAt obs a := by simp [lastSizeAt, ho]
      have hstep : waitLoop obs (lastSizeAt obs a) sl a (r + 1)
          = waitLoop obs (lastSizeAt obs (a + 1)) (sl + 1) (a + 1) r := by
        simp only [waitLoop, ho, hlast]
      rw [hstep, ih (a + 1) (sl + 1)]
      rw [List.find?_cons_of_neg _ (by simpa using hready), List.find?_map]
      simp only [Function.comp_def, Nat.succ_eq_add_one]
      have harg : (fun i => readyAt obs (a + 1 + i)) = fun i => readyAt obs (a + (i + 1)) := by
        funext i
        congr 1
        omega
      rw [harg]
      cases hf : (List.range r).find? (fun i => readyAt obs (a + (i + 1))) with
      | none => exact congrArg (Prod.mk false) (by omega)
      | some i => exact congrArg (Prod.mk true) (by omega)
    | size n =>
      by_cases hc : n = lastSizeAt obs a ∧ 0 < n
      · have hready : readyAt obs a = true := by
          simp only [readyAt, ho, decide_eq_true_eq]
          exact hc
        have hstep : waitLoop obs (lastSizeAt obs a) sl a (r + 1) = (true, sl + 1) := by
          simp only [waitLoop, ho, if_pos hc]
        rw [hstep, List.find?_cons_of_pos _ (by simpa using hready)]
      · have hready : readyAt obs a = false := by
          simp only [readyAt, ho, decide_eq_false_iff_not]
          exact hc
        have hlast : lastSizeAt obs (a + 1) = n := by simp [lastSizeAt, ho]
        have hstep : waitLoop obs (lastSizeAt obs a) sl a (r + 1)
            = waitLoop obs (lastSizeAt obs (a + 1)) (sl + 1) (a + 1) r := by
          simp only [waitLoop, ho, if_neg hc, hlast]
        rw [hstep, ih (a + 1) (sl + 1)]
        rw [List.find?_cons_of_neg _ (by simpa using hready), List.find?_map]
        simp only [Function.comp_def, Nat.succ_eq_add_one]
        have harg : (fun i => readyAt obs (a + 1 + i)) = fun i => readyAt obs (a + (i + 1)) := by
          funext i
          congr 1
          omega
        rw [harg]
        cases hf : (List.range r).find? (fun i => readyAt obs (a + (i + 1))) with
        | none => exact congrArg (Prod.mk false) (by omega)
        | some i => exact congrArg (Prod.mk true) (by omega)

/-- Actions of the `on_created` handler after the readiness wait (lines 147
to 151): post the file when ready, log the timeout warning otherwise. -/
inductive ReadyAction where
  | post
  | warnTimeout
deriving DecidableEq

/-- Dispatch of `on_created` on the readiness result. -/
def on_created_dispatch (ready : Bool) : ReadyAction :=
  if ready then .post else .warnTimeout

/-- C7: the detector reports ready exactly when, within the budget of ten
attempts, some attempt observes a non-zero size equal to the immediately
preceding size observation; when the first such attempt is `k` the loop has
slept `k + 1` times (one interval per earlier attempt plus the extra settle
interval after the readiness test passes); a file absent on early polls
simply consumes attempts (the absent branch retries, visible in the iff
through `readyAt` becoming true at a later attempt); when the budget is
exhausted with no ready attempt the result is not ready after exactly ten
sleeps, and the caller then takes the timeout-warning action and never the
post action. -/
theorem c7_readiness (obs : Nat → FileObs) :
    ((wait_for_file_ready obs).1 = true ↔ ∃ k, k < 10 ∧ readyAt obs k = true)
    ∧ (∀ k, (List.range 10).find? (readyAt obs) = some k →
        wait_for_file_ready obs = (true, k + 1))
    ∧ ((List.range 10).find? (readyAt obs) = none →
        wait_for_file_ready obs = (false, 10))
    ∧ on_created_dispatch false = ReadyAction.warnTimeout
    ∧ on_created_dispatch true = ReadyAction.post := by
  have key : wait_for_file_ready obs =
      match (List.range 10).find? (readyAt obs) with
      | some i => (true, i + 1)
      | none => (false, 10) := by
    have h := waitLoop_eq obs 10 0 0
    have harg : (fun i => readyAt obs (0 + i)) = readyAt obs := by
      funext i
      simp
    rw [harg] at h
    simpa [wait_for_file_ready] using h
  refine ⟨?_, ?_, ?_, rfl, rfl⟩
  · constructor
    · intro htrue
      cases hf : (List.range 10).find? (readyAt obs) with
      | none =>
        rw [key, hf] at htrue
        simp at htrue
      | some k =>
        have hmem := List.mem_of_find?_eq_some hf
        have hk := List.find?_some hf
        exact ⟨k, List.mem_range.mp hmem, hk⟩
    · rintro ⟨k, hk, hr⟩
      have hsome : ((List.range 10).find? (readyAt obs)).isSome := by
        rw [List.find?_isSome]
        exact ⟨k, List.mem_range.mpr hk, hr⟩
      cases hf : (List.range 10).find? (readyAt obs) with
      | none => rw [hf] at hsome; simp at hsome
      | some i => rw [key, hf]
  · intro k hf
    rw [key, hf]
  · intro hf
    rw [key, hf]

/-- Observation trace for the C7 witness: the file does not exist on the
first poll, then is seen with a stable non-zero size. -/
def obsW : Nat → FileObs :=
  fun n => if n = 0 then FileObs.absent else FileObs.size 7

/-- Witness for C7: with the concrete trace `obsW` the first ready attempt is
the third one (index 2), the detector returns ready after three sleeps, and
the caller posts the file. -/
theorem c7_witness :
    wait_for_file_ready obsW = (true, 3)
    ∧ on_created_dispatch (wait_for_file_ready obsW).1 = ReadyAction.post := by
  have h := (c7_readiness obsW).2.1 2 (by decide)
  exact ⟨h, by rw [h]; decide⟩

/-!
Model of `get_category_id` (lines 62 to 90) and of the publishing handler
`MarkdownHandler.post_to_wordpress` (lines 172 to 348). External effects are
an environment value: the outcome of the file read, the YAML loader, the
markdown renderer, the category listing call, the post creation call, and the
archive move block.
-/

/-- A category object of the listing response, as the script reads it. -/
structure Category where
  id : Int
  name : String
deriving DecidableEq

/-- Outcome of the category listing request: a raised requests exception or a
response with a status code and a parsed JSON body. -/
inductive CatFetch where
  | netErr
  | resp (status : Nat) (cats : List Category)
deriving DecidableEq

/-- Query parameters of the category listing request. -/
structure CatRequest where
  perPage : Nat
  orderby : String
  order : String
deriving DecidableEq

/-- Model of `get_category_id`: the first component is the returned category
identifier, the second records the listing request that was issued, if any.
A falsy name returns immediately with no request. With a truthy name the
request is issued with `per_page=100`, `orderby=name`, `order=asc`; on a 200
response the first category whose lower-cased name equals the lower-cased
query is returned; a non-200 response, a network error, and also a non-string
name (whose `.lower()` call raises inside the try and is caught by the
generic handler) all yield no identifier. -/
def get_category_id (fetch : CatFetch) (category_name : Option PyVal) :
    Option Int × Option CatRequest :=
  if pyTruthyOpt category_name = false then (none, none)
  else
    let req : CatRequest := ⟨100, "name", "asc"⟩
    match fetch with
    | .netErr => (none, some req)
    | .resp status cats =>
      if status = 200 then
        match category_name with
        | some (.str s) =>
          match cats.find? (fun c => pyLower c.name == pyLower s) with
          | some c => (some c.id, some req)
          | none => (none, some req)
        | _ => (none, some req)
      else (none, some req)

/-- Outcome of reading the watched file (lines 186 to 200). -/
inductive ReadRes where
  | fileNotFound
  | permError
  | otherError
  | ok (content : String)
deriving DecidableEq

/-- Outcome of the post creation request (lines 277 to 295). -/
inductive HttpRes where
  | timeout
  | connError
  | reqError
  | resp (status : Nat) (link : String)
deriving DecidableEq

/-- Outcome of the archive block after a 201 response (lines 316 to 335).
`ok` is the successful move; `moveFailed` is an OS, permission or shutil
error raised after `dest` was assigned, which the handler at line 332 logs
before still marking the file processed; `makedirsFailed` is `os.makedirs`
raising before `dest` is assigned, in which case the handler at line 333
itself raises `UnboundLocalError` while formatting its log message, the
exception escapes to the catch-all at line 345, and the path is never marked
processed. -/
inductive ArchiveRes where
  | ok
  | moveFailed
  | makedirsFailed
deriving DecidableEq

/-- Failure before the post creation request is sent. `metaAttrError` is the
`AttributeError` from calling `.get` on a non-mapping metadata object, and
`statusTypeError` the `AttributeError` from calling `.lower()` on a
non-string status value; both propagate to the catch-all handler. -/
inductive PreFail where
  | readNotFound
  | readPermission
  | readOther
  | emptyFile
  | metaAttrError
  | renderError
  | statusTypeError
deriving DecidableEq

/-- Failure of the post creation step. -/
inductive SubmitFail where
  | timeout
  | connError
  | reqError
  | badStatus (code : Nat)
deriving DecidableEq

/-- The JSON payload of the post creation request (lines 262 to 272): the
date and categories fields are present only when resolved. -/
structure PostData where
  title : PyVal
  content : String
  status : String
  date : Option String
  categories : Option (List Int)
deriving DecidableEq

/-- Outcome of one `post_to_wordpress` call. -/
inductive Outcome where
  | rejected
  | preFailed (r : PreFail)
  | submitFailed (pd : PostData) (r : SubmitFail)
  | published (pd : PostData) (archived : ArchiveRes)
  | publishedCrashed (pd : PostData)
deriving DecidableEq

/-- Constructor class of an outcome, used to state that a step cannot change
the fate of an attempt. -/
inductive OutcomeKind where
  | rejected
  | preFailed
  | submitFailed
  | published
  | publishedCrashed
deriving DecidableEq

/-- Kind of an outcome. -/
def Outcome.kind : Outcome → OutcomeKind
  | .rejected => .rejected
  | .preFailed _ => .preFailed
  | .submitFailed _ _ => .submitFailed
  | .published _ _ => .published
  | .publishedCrashed _ => .publishedCrashed

/-- A watched file path, split into the directory part, the stem and the
suffix, mirroring the `pathlib` accessors the script uses. -/
structure FPath where
  dir : String
  stem : String
  suffix : String
deriving DecidableEq

/-- The string form of a path, the key used in the two tracker sets. -/
def fpathStr (p : FPath) : String :=
  p.dir ++ "/" ++ p.stem ++ p.suffix

/-- The two dedup sets: `self.processing` (in-flight) and the module global
`processed_files` (completed). -/
structure Tracker where
  processing : List String
  processed : List String
deriving DecidableEq

/-- The admission check and insertion of lines 177 to 181: reject when the
path is in either set, otherwise add it to the in-flight set. -/
def tryAdmit (st : Tracker) (p : String) : Bool × Tracker :=
  if p ∈ st.processed ∨ p ∈ st.processing then (false, st)
  else (true, { st with processing := p :: st.processing })

/-- Environment of one publishing attempt: the outcomes of every external
interaction the handler performs. -/
structure Env where
  read : ReadRes
  yload : String → YamlRes
  render : String → Except Unit String
  catFetch : CatFetch
  http : HttpRes
  archive : ArchiveRes

/-- The conditional categories field of the payload (line 271): Python adds
the field only when the resolved identifier is truthy, so an identifier of
zero is omitted exactly like a missing match. -/
def categoriesField (categoryId : Option Int) : Option (List Int) :=
  match categoryId with
  | some i => if i ≠ 0 then some [i] else none
  | none => none

/-- The part of the attempt body from line 210 on, given the document content
and the metadata object returned by the frontmatter parse. Calling `.get` on
a non-mapping metadata object raises `AttributeError` straight into the
catch-all handler; on a mapping the body continues with title resolution,
status resolution (which can itself raise on a non-string value), date and
category resolution, markdown rendering, the post creation call, and on a
201 response the archive block. -/
def postAttemptMeta (env : Env) (path : FPath) (content : String) :
    MetaResult → Bool × Outcome
  | .nonDict _ => (false, .preFailed .metaAttrError)
  | .dict md =>
    let tb := resolveTitle (metaGet md "title")
      (parse_frontmatter env.yload content).2 path.stem
    match statusOf (metaGet md "status") with
    | .error _ => (false, .preFailed .statusTypeError)
    | .ok status =>
      let dateStr := (resolveDate (metaGet md "date")).1
      let categoryId := (get_category_id env.catFetch (metaGet md "category")).1
      match env.render tb.2 with
      | .error _ => (false, .preFailed .renderError)
      | .ok html =>
        let pd : PostData := ⟨tb.1, html, status, dateStr, categoriesField categoryId⟩
        match env.http with
        | .timeout => (false, .submitFailed pd .timeout)
        | .connError => (false, .submitFailed pd .connError)
        | .reqError => (false, .submitFailed pd .reqError)
        | .resp code _ =>
          if code = 201 then
            match env.archive with
            | .ok => (true, .published pd .ok)
            | .moveFailed => (true, .published pd .moveFailed)
            | .makedirsFailed => (false, .publishedCrashed pd)
          else (false, .submitFailed pd (.badStatus code))

/-- The body of the try block of `post_to_wordpress` (lines 184 to 343), run
after admission: read, emptiness check, frontmatter parse, then the rest of
the body on the resulting metadata object. The boolean records whether the
path is added to `processed_files` (lines 331 and 335). -/
def postAttempt (env : Env) (path : FPath) : Bool × Outcome :=
  match env.read with
  | .fileNotFound => (false, .preFailed .readNotFound)
  | .permError => (false, .preFailed .readPermission)
  | .otherError => (false, .preFailed .readOther)
  | .ok content =>
    if pyStrip content = "" then (false, .preFailed .emptyFile)
    else postAttemptMeta env path content (parse_frontmatter env.yload content).1

/-- Model of `post_to_wordpress`: the admission check of lines 177 to 181,
the attempt body, and the `finally` clause of line 348 discarding the path
from the in-flight set. The early returns inside the body also discard the
path; since discarding is idempotent this is the single erase below. -/
def post_to_wordpress (env : Env) (path : FPath) (st : Tracker) : Tracker × Outcome :=
  match tryAdmit st (fpathStr path) with
  | (false, _) => (st, .rejected)
  | (true, st1) =>
    let r := postAttempt env path
    let st2 := if r.1 then { st1 with processed := fpathStr path :: st1.processed } else st1
    ({ st2 with processing := st2.processing.erase (fpathStr path) }, r.2)

/-!
Model of the archive directory for the collision handling of lines 315 to
328. The directory content is an association list from file names to content
identifiers; a move onto an existing name overwrites it, as `shutil.move`
does on the same filesystem.
-/

/-- Lookup of a file name in the archive directory. -/
def fsLookup (n : String) : List (String × Nat) → Option Nat
  | [] => none
  | e :: t => if e.1 = n then some e.2 else fsLookup n t

/-- Removal of a file name from the archive directory. -/
def fsRemove (n : String) : List (String × Nat) → List (String × Nat)
  | [] => []
  | e :: t => if e.1 = n then t else e :: fsRemove n t

/-- Rename inside the archive directory, overwriting the target name. -/
def renameEntry (fromName toName : String) (fs : List (String × Nat)) :
    List (String × Nat) :=
  match fsLookup fromName fs with
  | some v => (toName, v) :: fsRemove toName (fsRemove fromName fs)
  | none => fs

/-- The archive block of lines 317 to 327 on a successful move: compute the
destination name from the file name, back up a pre-existing file under
the name formed from the stem, an underscore, the integer timestamp and the
suffix, then move the published file to the destination name. -/
def archiveStep (fs : List (String × Nat)) (ts : Nat) (stem suffix : String)
    (srcId : Nat) : List (String × Nat) :=
  let destName := stem ++ suffix
  let fs1 :=
    if (fsLookup destName fs).isSome then
      renameEntry destName (stem ++ "_" ++ toString ts ++ suffix) fs
    else fs
  (destName, srcId) :: fsRemove destName fs1

/-- The part of the body after the parse marks the path processed exactly
when the outcome is a published one, and never yields the rejection outcome
(which only the admission check produces). -/
theorem postAttemptMeta_cases (env : Env) (path : FPath) (content : String)
    (mr : MetaResult) :
    ((postAttemptMeta env path content mr).1 = true
      ↔ ∃ pd ar, (postAttemptMeta env path content mr).2 = Outcome.published pd ar)
    ∧ (postAttemptMeta env path content mr).2 ≠ Outcome.rejected := by
  rcases env with ⟨rd, yl, rn, cf, ht, ar⟩
  cases mr with
  | nonDict v => simp [postAttemptMeta]
  | dict md =>
    simp only [postAttemptMeta]
    cases hst : statusOf (metaGet md "status") with
    | error e => simp
    | ok status =>
      cases hrn : rn (resolveTitle (metaGet md "title")
          (parse_frontmatter yl content).2 path.stem).2 with
      | error e => simp
      | ok html =>
        cases ht with
        | timeout => simp
        | connError => simp
        | reqError => simp
        | resp code link =>
          by_cases hc : code = 201
          · subst hc
            cases ar with
            | ok => exact ⟨⟨fun _ => ⟨_, _, rfl⟩, fun _ => rfl⟩, by simp⟩
            | moveFailed => exact ⟨⟨fun _ => ⟨_, _, rfl⟩, fun _ => rfl⟩, by simp⟩
            | makedirsFailed => simp
          · simp [hc]

/-- The attempt body marks the path processed exactly when the outcome is a
published one, and never yields the rejection outcome. -/
theorem postAttempt_cases (env : Env) (path : FPath) :
    ((postAttempt env path).1 = true
      ↔ ∃ pd ar, (postAttempt env path).2 = Outcome.published pd ar)
    ∧ (postAttempt env path).2 ≠ Outcome.rejected := by
  rcases env with ⟨rd, yl, rn, cf, ht, ar⟩
  cases rd with
  | fileNotFound => simp [postAttempt]
  | permError => simp [postAttempt]
  | otherError => simp [postAttempt]
  | ok content =>
    by_cases hstrip : pyStrip content = ""
    · simp [postAttempt, hstrip]
    · simp only [postAttempt, hstrip, if_false]
      exact postAttemptMeta_cases ⟨ReadRes.ok content, yl, rn, cf, ht, ar⟩ path content _

/-- A call for a path in either tracker set returns immediately with the
rejection outcome and an unchanged tracker. -/
theorem post_rejected_of_dup (env : Env) (path : FPath) (st : Tracker)
    (hd : fpathStr path ∈ st.processed ∨ fpathStr path ∈ st.processing) :
    post_to_wordpress env path st = (st, Outcome.rejected) := by
  unfold post_to_wordpress tryAdmit
  rw [if_pos hd]

/-- A call for a path in neither set runs the attempt body: the in-flight set
is restored (the admission insert and the final discard cancel), the
completed set gains the path exactly when the body marks it processed, and
the outcome is the outcome of the body. -/
theorem post_admitted_eq (env : Env) (path : FPath) (st : Tracker)
    (h1 : fpathStr path ∉ st.processing) (h2 : fpathStr path ∉ st.processed) :
    post_to_wordpress env path st =
      (⟨st.processing,
        if (postAttempt env path).1 then fpathStr path :: st.processed else st.processed⟩,
       (postAttempt env path).2) := by
  unfold post_to_wordpress tryAdmit
  rw [if_neg (fun hd => hd.elim h2 h1)]
  dsimp only
  by_cases hb : (postAttempt env path).1 = true
  · simp only [hb, if_true]
    rw [List.erase_cons_head]
  · simp only [Bool.not_eq_true] at hb
    simp only [hb, Bool.false_eq_true, if_false]
    rw [List.erase_cons_head]

/-- Membership in the completed set survives any later call, for any path and
environment. -/
theorem post_processed_mono (env : Env) (path : FPath) (st : Tracker) (q : String)
    (hq : q ∈ st.processed) :
    q ∈ (post_to_wordpress env path st).1.processed := by
  by_cases hd : fpathStr path ∈ st.processed ∨ fpathStr path ∈ st.processing
  · rw [post_rejected_of_dup env path st hd]
    exact hq
  · push_neg at hd
    rw [post_admitted_eq env path st hd.2 hd.1]
    by_cases hb : (postAttempt env path).1 = true
    · simp only [hb, if_true]
      exact List.mem_cons_of_mem _ hq
    · simp only [Bool.not_eq_true] at hb
      simp only [hb, Bool.false_eq_true, if_false]
      exact hq

/-- Replacing the category fetch outcome in the post-parse body changes
neither whether it marks the path processed nor the kind of the outcome:
category resolution feeds only the categories field of the payload. -/
theorem postAttemptMeta_cat_invariant (rd : ReadRes) (yl : String → YamlRes)
    (rn : String → Except Unit String) (cf cf2 : CatFetch) (ht : HttpRes)
    (ar : ArchiveRes) (path : FPath) (content : String) (mr : MetaResult) :
    (postAttemptMeta ⟨rd, yl, rn, cf2, ht, ar⟩ path content mr).1
        = (postAttemptMeta ⟨rd, yl, rn, cf, ht, ar⟩ path content mr).1
    ∧ Outcome.kind (postAttemptMeta ⟨rd, yl, rn, cf2, ht, ar⟩ path content mr).2
        = Outcome.kind (postAttemptMeta ⟨rd, yl, rn, cf, ht, ar⟩ path content mr).2 := by
  cases mr with
  | nonDict v => exact ⟨rfl, rfl⟩
  | dict md =>
    simp only [postAttemptMeta]
    cases hst : statusOf (metaGet md "status") with
    | error e => exact ⟨rfl, rfl⟩
    | ok status =>
      cases hrn : rn (resolveTitle (metaGet md "title")
          (parse_frontmatter yl content).2 path.stem).2 with
      | error e => exact ⟨rfl, rfl⟩
      | ok html =>
        cases ht with
        | timeout => exact ⟨rfl, rfl⟩
        | connError => exact ⟨rfl, rfl⟩
        | reqError => exact ⟨rfl, rfl⟩
        | resp code link =>
          by_cases hc : code = 201
          · subst hc
            cases ar with
            | ok => exact ⟨rfl, rfl⟩
            | moveFailed => exact ⟨rfl, rfl⟩
            | makedirsFailed => exact ⟨rfl, rfl⟩
          · constructor
            · simp [hc]
            · simp [hc, Outcome.kind]

/-- Replacing the category fetch outcome changes neither whether the attempt
body marks the path processed nor the kind of the outcome. -/
theorem postAttempt_cat_invariant (rd : ReadRes) (yl : String → YamlRes)
    (rn : String → Except Unit String) (cf cf2 : CatFetch) (ht : HttpRes)
    (ar : ArchiveRes) (path : FPath) :
    (postAttempt ⟨rd, yl, rn, cf2, ht, ar⟩ path).1
        = (postAttempt ⟨rd, yl, rn, cf, ht, ar⟩ path).1
    ∧ Outcome.kind (postAttempt ⟨rd, yl, rn, cf2, ht, ar⟩ path).2
        = Outcome.kind (postAttempt ⟨rd, yl, rn, cf, ht, ar⟩ path).2 := by
  cases rd with
  | fileNotFound => exact ⟨rfl, rfl⟩
  | permError => exact ⟨rfl, rfl⟩
  | otherError => exact ⟨rfl, rfl⟩
  | ok content =>
    by_cases hstrip : pyStrip content = ""
    · simp [postAttempt, hstrip]
    · simp only [postAttempt, hstrip, if_false]
      exact postAttemptMeta_cat_invariant (ReadRes.ok content) yl rn cf cf2 ht ar path
        content ((parse_frontmatter yl content).1)

/-- The category fetch invariance stated over a structure update. -/
theorem postAttempt_cat_invariant_env (env : Env) (cf2 : CatFetch) (path : FPath) :
    (postAttempt { env with catFetch := cf2 } path).1 = (postAttempt env path).1
    ∧ Outcome.kind (postAttempt { env with catFetch := cf2 } path).2
        = Outcome.kind (postAttempt env path).2 := by
  rcases env with ⟨rd, yl, rn, cf, ht, arc⟩
  exact postAttempt_cat_invariant rd yl rn cf cf2 ht arc path

/-- In a published outcome of the post-parse body on a mapping, the
categories field of the submitted payload is exactly the conditional field
built from the category resolution result. -/
theorem postAttemptMeta_published_categories (env : Env) (path : FPath)
    (content : String) (md : Metadata) (pd : PostData) (ar : ArchiveRes)
    (hp : (postAttemptMeta env path content (MetaResult.dict md)).2
        = Outcome.published pd ar) :
    pd.categories
      = categoriesField (get_category_id env.catFetch (metaGet md "category")).1 := by
  rcases env with ⟨rd, yl, rn, cf, ht, arc⟩
  simp only [postAttemptMeta] at hp
  revert hp
  cases hst : statusOf (metaGet md "status") with
  | error e => intro hp; exact absurd hp (by simp)
  | ok status =>
    cases hrn : rn (resolveTitle (metaGet md "title")
        (parse_frontmatter yl content).2 path.stem).2 with
    | error e => intro hp; exact absurd hp (by simp)
    | ok html =>
      cases ht with
      | timeout => intro hp; exact absurd hp (by simp)
      | connError => intro hp; exact absurd hp (by simp)
      | reqError => intro hp; exact absurd hp (by simp)
      | resp code link =>
        by_cases hc : code = 201
        · subst hc
          cases arc with
          | ok =>
            intro hp
            simp at hp
            obtain ⟨h1, h2⟩ := hp
            subst h1
            rfl
          | moveFailed =>
            intro hp
            simp at hp
            obtain ⟨h1, h2⟩ := hp
            subst h1
            rfl
          | makedirsFailed =>
            intro hp
            simp at hp
        · intro hp
          simp [hc] at hp

/-- In a published outcome the categories field of the submitted payload is
exactly the conditional field built from the category resolution result on
the parsed metadata mapping. -/
theorem postAttempt_published_categories (env : Env) (path : FPath)
    (content : String) (md : Metadata) (pd : PostData) (ar : ArchiveRes)
    (hr : env.read = ReadRes.ok content)
    (hmd : (parse_frontmatter env.yload content).1 = MetaResult.dict md)
    (hp : (postAttempt env path).2 = Outcome.published pd ar) :
    pd.categories
      = categoriesField (get_category_id env.catFetch (metaGet md "category")).1 := by
  rcases env with ⟨rd, yl, rn, cf, ht, arc⟩
  obtain rfl : rd = ReadRes.ok content := hr
  have hmd2 : (parse_frontmatter yl content).1 = MetaResult.dict md := hmd
  by_cases hstrip : pyStrip content = ""
  · simp [postAttempt, hstrip] at hp
  · simp only [postAttempt, hstrip, if_false] at hp
    rw [hmd2] at hp
    exact postAttemptMeta_published_categories ⟨ReadRes.ok content, yl, rn, cf, ht, arc⟩
      path content md pd ar hp

/-- Outcomes that the claims count as failures of an attempt: the read
errors, the empty file, the render exception, the transport errors and a
non-201 status. -/
def failureOutcome : Outcome → Bool
  | .preFailed _ => true
  | .submitFailed _ _ => true
  | _ => false

/-- A non-string status value makes `.lower()` raise; the exception reaches
the catch-all handler. -/
theorem statusOf_error_of_nonstring (v : PyVal) (hns : ∀ s, v ≠ PyVal.str s) :
    statusOf (some v) = Except.error () := by
  cases v with
  | pynone => rfl
  | str s => exact absurd rfl (hns s)
  | int n => rfl
  | datetime d => rfl

/-- When the frontmatter parse yields a mapping on which the status
resolution raises, the attempt body stops with the catch-all outcome and
does not mark the path processed. -/
theorem postAttempt_status_crash (env : Env) (path : FPath) (content : String)
    (md : Metadata)
    (hr : env.read = ReadRes.ok content)
    (hne : ¬ pyStrip content = "")
    (hmd : (parse_frontmatter env.yload content).1 = MetaResult.dict md)
    (hst : statusOf (metaGet md "status") = Except.error ()) :
    postAttempt env path = (false, Outcome.preFailed PreFail.statusTypeError) := by
  rcases env with ⟨rd, yl, rn, cf, ht, arc⟩
  obtain rfl : rd = ReadRes.ok content := hr
  have hmd2 : (parse_frontmatter yl content).1 = MetaResult.dict md := hmd
  simp only [postAttempt, hne, if_false]
  rw [hmd2]
  simp only [postAttemptMeta]
  rw [hst]

/-- The concrete watched file used by the witnesses. -/
def pathW : FPath := ⟨"watch", "note", ".md"⟩

/-- Environment of a successful attempt over a plain one-word document, with
the archive block outcome left as a parameter. -/
def envPublish (ar : ArchiveRes) : Env :=
  ⟨.ok "hello", fun _ => .raised, fun b => .ok b, .netErr, .resp 201 "link", ar⟩

/-- Environment of an attempt that fails at the file read. -/
def envFail : Env :=
  ⟨.fileNotFound, fun _ => .raised, fun b => .ok b, .netErr, .timeout, .ok⟩

/-- C1: a call for a path already in the in-flight set or the completed set
returns the rejection outcome with the tracker untouched; a path in neither
set is admitted (the admission step returns true and places the path in the
in-flight set) and the call never yields the rejection outcome; while a path
is in flight any admission check for it rejects; after a published outcome
the path is in the completed set; any call for a path in the completed set is
rejected with the tracker untouched; and completed-set membership survives
every later call for any path, so the rejection is permanent for the process
lifetime. -/
theorem c1_admission_at_most_once (env : Env) (path : FPath) (st : Tracker) :
    (fpathStr path ∈ st.processing ∨ fpathStr path ∈ st.processed →
      post_to_wordpress env path st = (st, Outcome.rejected))
    ∧ (fpathStr path ∉ st.processing → fpathStr path ∉ st.processed →
        tryAdmit st (fpathStr path)
          = (true, { st with processing := fpathStr path :: st.processing })
        ∧ (post_to_wordpress env path st).2 ≠ Outcome.rejected)
    ∧ (∀ st3 : Tracker, fpathStr path ∈ st3.processing →
        tryAdmit st3 (fpathStr path) = (false, st3))
    ∧ (∀ pd ar, (post_to_wordpress env path st).2 = Outcome.published pd ar →
        fpathStr path ∈ (post_to_wordpress env path st).1.processed)
    ∧ (∀ env2 st2, fpathStr path ∈ st2.processed →
        post_to_wordpress env2 path st2 = (st2, Outcome.rejected))
    ∧ (∀ env2 path2 st2, fpathStr path ∈ st2.processed →
        fpathStr path ∈ (post_to_wordpress env2 path2 st2).1.processed) := by
  refine ⟨?_, ?_, ?_, ?_, ?_, ?_⟩
  · intro h
    exact post_rejected_of_dup env path st h.symm
  · intro h1 h2
    refine ⟨?_, ?_⟩
    · unfold tryAdmit
      rw [if_neg (fun hd => hd.elim h2 h1)]
    · rw [post_admitted_eq env path st h1 h2]
      exact (postAttempt_cases env path).2
  · intro st3 h3
    unfold tryAdmit
    rw [if_pos (Or.inr h3)]
  · intro pd ar hp
    by_cases hd : fpathStr path ∈ st.processed ∨ fpathStr path ∈ st.processing
    · rw [post_rejected_of_dup env path st hd] at hp
      exact absurd hp (by simp)
    · push_neg at hd
      rw [post_admitted_eq env path st hd.2 hd.1] at hp ⊢
      have hb : (postAttempt env path).1 = true :=
        (postAttempt_cases env path).1.mpr ⟨pd, ar, hp⟩
      simp only [hb, if_true]
      exact List.mem_cons_self _ _
  · intro env2 st2 h
    exact post_rejected_of_dup env2 path st2 (Or.inl h)
  · intro env2 path2 st2 h
    exact post_processed_mono env2 path2 st2 _ h

/-- Witness for C1: a fresh path is admitted and the call is not rejected;
a path already in the completed set is rejected with the tracker unchanged. -/
theorem c1_witness :
    (tryAdmit ⟨[], []⟩ (fpathStr pathW) = (true, ⟨[fpathStr pathW], []⟩)
      ∧ (post_to_wordpress (envPublish ArchiveRes.ok) pathW ⟨[], []⟩).2
          ≠ Outcome.rejected)
    ∧ post_to_wordpress envFail pathW ⟨[], [fpathStr pathW]⟩
        = (⟨[], [fpathStr pathW]⟩, Outcome.rejected) := by
  exact ⟨(c1_admission_at_most_once (envPublish ArchiveRes.ok) pathW ⟨[], []⟩).2.1
      (by simp) (by simp),
    (c1_admission_at_most_once (envPublish ArchiveRes.ok) pathW ⟨[], []⟩).2.2.2.2.1
      envFail ⟨[], [fpathStr pathW]⟩ (by decide)⟩

/-- C2: when an attempt for a fresh path ends in any failure outcome (read
error, empty content, render exception, transport error or non-201 status),
the tracker returns to its previous value: the path is out of the in-flight
set, not in the completed set, and a subsequent call for the same path is
admitted again (not rejected). -/
theorem c2_failure_releases (env : Env) (path : FPath) (st : Tracker)
    (h1 : fpathStr path ∉ st.processing) (h2 : fpathStr path ∉ st.processed)
    (hf : failureOutcome (post_to_wordpress env path st).2 = true) :
    (post_to_wordpress env path st).1 = st
    ∧ fpathStr path ∉ (post_to_wordpress env path st).1.processing
    ∧ fpathStr path ∉ (post_to_wordpress env path st).1.processed
    ∧ ∀ env2, (post_to_wordpress env2 path (post_to_wordpress env path st).1).2
        ≠ Outcome.rejected := by
  have hb : (postAttempt env path).1 = false := by
    by_cases hb : (postAttempt env path).1 = true
    · obtain ⟨pd, ar, hp⟩ := (postAttempt_cases env path).1.mp hb
      rw [post_admitted_eq env path st h1 h2] at hf
      rw [hp] at hf
      simp [failureOutcome] at hf
    · simpa using hb
  have hstate : (post_to_wordpress env path st).1 = st := by
    rw [post_admitted_eq env path st h1 h2]
    simp only [hb, Bool.false_eq_true, if_false]
  refine ⟨hstate, ?_, ?_, ?_⟩
  · rw [hstate]
    exact h1
  · rw [hstate]
    exact h2
  · intro env2
    rw [hstate, post_admitted_eq env2 path st h1 h2]
    exact (postAttempt_cases env2 path).2

/-- Witness for C2: an attempt failing at the file read leaves the empty
tracker empty and a retry is admitted. -/
theorem c2_witness :
    (post_to_wordpress envFail pathW ⟨[], []⟩).1 = ⟨[], []⟩
    ∧ ∀ env2, (post_to_wordpress env2 pathW
        (post_to_wordpress envFail pathW ⟨[], []⟩).1).2 ≠ Outcome.rejected := by
  have h := c2_failure_releases envFail pathW ⟨[], []⟩ (by simp) (by simp) (by decide)
  exact ⟨h.1, h.2.2.2⟩

/-- C3 is a code bug: the archive handler intends to mark the path completed
on every archival failure (the comment at line 334 states that the post
succeeded so the file is marked processed), and it does so when the failure
strikes after `dest` is assigned; but when `os.makedirs` itself raises, the
handler crashes on the unassigned `dest` while formatting its message, the
catch-all swallows the new exception, and the path is NOT marked completed,
leaving a remotely published file eligible for re-publication. This theorem
evaluates the model at both archive outcomes after a 201 response. -/
theorem c3_archival_completion :
    ((post_to_wordpress (envPublish ArchiveRes.moveFailed) pathW ⟨[], []⟩).2
        = Outcome.published ⟨PyVal.str "note", "hello", "draft", none, none⟩
            ArchiveRes.moveFailed
      ∧ fpathStr pathW ∈
          (post_to_wordpress (envPublish ArchiveRes.moveFailed) pathW ⟨[], []⟩).1.processed)
    ∧ ((post_to_wordpress (envPublish ArchiveRes.makedirsFailed) pathW ⟨[], []⟩).2
        = Outcome.publishedCrashed ⟨PyVal.str "note", "hello", "draft", none, none⟩
      ∧ (post_to_wordpress (envPublish ArchiveRes.makedirsFailed) pathW
          ⟨[], []⟩).1.processed = []) := by
  refine ⟨⟨by decide, by decide⟩, by decide, by decide⟩

/-- C10: a truthy-or-not non-string status value in the parsed metadata is
not coerced to the draft default: the `.lower()` call raises, the exception
reaches the catch-all handler, the attempt ends with the crash outcome,
nothing is published, the tracker is restored, and the path can be admitted
again later. -/
theorem c10_nonstring_status_crash (env : Env) (path : FPath) (st : Tracker)
    (content : String) (md : Metadata) (v : PyVal)
    (hr : env.read = ReadRes.ok content)
    (hne : ¬ pyStrip content = "")
    (hmd : (parse_frontmatter env.yload content).1 = MetaResult.dict md)
    (hv : metaGet md "status" = some v)
    (hns : ∀ s, v ≠ PyVal.str s)
    (h1 : fpathStr path ∉ st.processing) (h2 : fpathStr path ∉ st.processed) :
    (post_to_wordpress env path st).2 = Outcome.preFailed PreFail.statusTypeError
    ∧ (post_to_wordpress env path st).1 = st
    ∧ ∀ env2, (post_to_wordpress env2 path st).2 ≠ Outcome.rejected := by
  have hpa : postAttempt env path = (false, Outcome.preFailed PreFail.statusTypeError) :=
    postAttempt_status_crash env path content md hr hne hmd
      (by rw [hv]; exact statusOf_error_of_nonstring v hns)
  rw [post_admitted_eq env path st h1 h2]
  refine ⟨?_, ?_, ?_⟩
  · rw [hpa]
  · rw [hpa]
    rfl
  · intro env2
    rw [post_admitted_eq env2 path st h1 h2]
    exact (postAttempt_cases env2 path).2

/-- Document and loader of the C10 witness: the frontmatter parses and gives
the status key the integer five. -/
def envC10 : Env :=
  ⟨ReadRes.ok "---\nx\n---\nbody",
    fun _ => YamlRes.mapping [("status", PyVal.int 5)], fun b => .ok b,
    CatFetch.netErr, HttpRes.resp 201 "link", ArchiveRes.ok⟩

/-- Witness for C10: with the status value five the attempt ends in the
catch-all outcome and the tracker is unchanged. -/
theorem c10_witness :
    (post_to_wordpress envC10 pathW ⟨[], []⟩).2 = Outcome.preFailed PreFail.statusTypeError
    ∧ (post_to_wordpress envC10 pathW ⟨[], []⟩).1 = ⟨[], []⟩ := by
  have h := c10_nonstring_status_crash envC10 pathW ⟨[], []⟩ "---\nx\n---\nbody"
    [("status", PyVal.int 5)] (PyVal.int 5) rfl (by decide) (by decide) (by decide)
    (fun s h => PyVal.noConfusion h) (by simp) (by simp)
  exact ⟨h.1, h.2.1⟩

/-- C9: an empty or absent category name returns no match with no request
issued; a non-empty name issues the listing request with one hundred results
ordered by name ascending; on a 200 response the identifier of the first
category whose name matches the query case-insensitively and exactly is
returned; a network error or a non-200 response yields no match; the
categories field is included only for a truthy identifier (so no match, and
likewise identifier zero, leave it absent); changing the category fetch
outcome never changes whether the attempt publishes or how it fails; and the
categories field of a published payload is exactly the conditional field
built from the resolver result on the parsed metadata mapping. -/
theorem c9_category_resolution (env : Env) (path : FPath) (st : Tracker) :
    (∀ f name, pyTruthyOpt name = false → get_category_id f name = (none, none))
    ∧ (∀ f s, s ≠ "" → (get_category_id f (some (PyVal.str s))).2
        = some ⟨100, "name", "asc"⟩)
    ∧ (∀ cats s, s ≠ "" →
        (get_category_id (CatFetch.resp 200 cats) (some (PyVal.str s))).1
          = (cats.find? (fun c => pyLower c.name == pyLower s)).map (fun c => c.id))
    ∧ (∀ f s, s ≠ "" → (∀ cats, f ≠ CatFetch.resp 200 cats) →
        (get_category_id f (some (PyVal.str s))).1 = none)
    ∧ (categoriesField none = none ∧ categoriesField (some 0) = none
        ∧ ∀ i : Int, i ≠ 0 → categoriesField (some i) = some [i])
    ∧ (∀ cf2, (post_to_wordpress { env with catFetch := cf2 } path st).1
          = (post_to_wordpress env path st).1
        ∧ Outcome.kind (post_to_wordpress { env with catFetch := cf2 } path st).2
          = Outcome.kind (post_to_wordpress env path st).2)
    ∧ (∀ content md pd ar, env.read = ReadRes.ok content →
        (parse_frontmatter env.yload content).1 = MetaResult.dict md →
        (post_to_wordpress env path st).2 = Outcome.published pd ar →
        pd.categories
          = categoriesField (get_category_id env.catFetch (metaGet md "category")).1) := by
  refine ⟨?_, ?_, ?_, ?_, ?_, ?_, ?_⟩
  · intro f name h
    unfold get_category_id
    rw [if_pos h]
  · intro f s hs
    have hcond : ¬ (pyTruthyOpt (some (PyVal.str s)) = false) := by
      simp [pyTruthyOpt, pyTruthy, hs]
    unfold get_category_id
    rw [if_neg hcond]
    cases f with
    | netErr => rfl
    | resp status cats =>
      by_cases h200 : status = 200
      · subst h200
        dsimp only
        rw [if_pos rfl]
        cases cats.find? (fun c => pyLower c.name == pyLower s) <;> rfl
      · dsimp only
        rw [if_neg h200]
  · intro cats s hs
    have hcond : ¬ (pyTruthyOpt (some (PyVal.str s)) = false) := by
      simp [pyTruthyOpt, pyTruthy, hs]
    unfold get_category_id
    rw [if_neg hcond]
    dsimp only
    rw [if_pos rfl]
    cases cats.find? (fun c => pyLower c.name == pyLower s) <;> rfl
  · intro f s hs hno
    have hcond : ¬ (pyTruthyOpt (some (PyVal.str s)) = false) := by
      simp [pyTruthyOpt, pyTruthy, hs]
    cases f with
    | netErr =>
      unfold get_category_id
      rw [if_neg hcond]
    | resp status cats =>
      by_cases h200 : status = 200
      · subst h200
        exact absurd rfl (hno cats)
      · unfold get_category_id
        rw [if_neg hcond]
        dsimp only
        rw [if_neg h200]
  · exact ⟨rfl, by decide, fun i hi => by simp [categoriesField, hi]⟩
  · intro cf2
    by_cases hd : fpathStr path ∈ st.processed ∨ fpathStr path ∈ st.processing
    · rw [post_rejected_of_dup _ path st hd, post_rejected_of_dup _ path st hd]
      exact ⟨rfl, rfl⟩
    · push_neg at hd
      rw [post_admitted_eq _ path st hd.2 hd.1, post_admitted_eq _ path st hd.2 hd.1]
      obtain ⟨hfst, hkind⟩ := postAttempt_cat_invariant_env env cf2 path
      exact ⟨by rw [hfst], hkind⟩
  · intro content md pd ar hr hmd hp
    by_cases hd : fpathStr path ∈ st.processed ∨ fpathStr path ∈ st.processing
    · rw [post_rejected_of_dup env path st hd] at hp
      exact absurd hp (by simp)
    · push_neg at hd
      rw [post_admitted_eq env path st hd.2 hd.1] at hp
      exact postAttempt_published_categories env path content md pd ar hr hmd hp

/-- Witness for C9: a case-insensitive exact match returns the identifier of
the first matching category, and a falsy name issues no request. -/
theorem c9_witness :
    (get_category_id (CatFetch.resp 200 [⟨3, "Tech"⟩, ⟨5, "TECH"⟩])
        (some (PyVal.str "tech"))).1 = some 3
    ∧ get_category_id CatFetch.netErr none = (none, none) := by
  constructor
  · rw [(c9_category_resolution envFail pathW ⟨[], []⟩).2.2.1
      [⟨3, "Tech"⟩, ⟨5, "TECH"⟩] "tech" (by decide)]
    decide
  · exact (c9_category_resolution envFail pathW ⟨[], []⟩).1 CatFetch.netErr none (by decide)

/-- Counterexample for C8: when the timestamped backup name is already
occupied (a second collision for the same stem and suffix within the same
second), the backup rename overwrites it. A directory holding contents one
and seven ends holding only two and one: the prior archived content seven,
present beforehand under the backup name, has silently vanished, refuting
the clause that archival never silently overwrites a prior archived
document. -/
theorem c8_counterexample :
    archiveStep [("a.md", 1), ("a_99.md", 7)] 99 "a" ".md" 2
      = [("a.md", 2), ("a_99.md", 1)]
    ∧ fsLookup "a_99.md" [("a.md", 1), ("a_99.md", 7)] = some 7
    ∧ (archiveStep [("a.md", 1), ("a_99.md", 7)] 99 "a" ".md" 2).all
        (fun e => e.2 != 7) = true := by
  exact ⟨by decide, by decide, by decide⟩

/-- C8 as amended: archiving with a name collision preserves the colliding
pair: the pre-existing archive entry is renamed to the stem followed by an
underscore, the integer timestamp and the suffix, and the new file takes the
original destination name, so afterwards both contents are present under
those names; but archival is not overwrite-free in general, because a file
already occupying the timestamped backup name is silently replaced by the
rename. -/
theorem c8_archive_collision (fs : List (String × Nat)) (ts : Nat)
    (stem suffix : String) (srcId oldId : Nat)
    (hold : fsLookup (stem ++ suffix) fs = some oldId) :
    fsLookup (stem ++ suffix) (archiveStep fs ts stem suffix srcId) = some srcId
    ∧ fsLookup (stem ++ "_" ++ toString ts ++ suffix)
        (archiveStep fs ts stem suffix srcId) = some oldId := by
  have hne : stem ++ suffix ≠ stem ++ "_" ++ toString ts ++ suffix := by
    intro he
    have hlen := congrArg String.length he
    simp only [String.length_append] at hlen
    have h1 : ("_" : String).length = 1 := rfl
    omega
  have hne2 : stem ++ "_" ++ toString ts ++ suffix ≠ stem ++ suffix := Ne.symm hne
  unfold archiveStep renameEntry
  dsimp only
  rw [hold]
  simp [fsLookup, fsRemove, hne, hne2]

/-- Witness for C8: a one-entry archive directory with a colliding name keeps
the old content under the timestamped name and the new content under the
original name. -/
theorem c8_witness :
    fsLookup ("a" ++ ".md") (archiveStep [("a.md", 1)] 99 "a" ".md" 2) = some 2
    ∧ fsLookup ("a" ++ "_" ++ toString 99 ++ ".md")
        (archiveStep [("a.md", 1)] 99 "a" ".md" 2) = some 1 :=
  c8_archive_collision [("a.md", 1)] 99 "a" ".md" 2 1 (by decide)

end AutoBlog
